import Mathlib

/-!
Verification of the blocks-game core against its design description.

The JavaScript sources are embedded shallowly: numbers become `ℚ`
(all arithmetic in the game is exact on the values that occur),
the mutable controller objects become explicit state records, and the
synchronous event-emitter dispatch becomes direct function composition in
handler-registration order.
-/

namespace Blocks

/-- Block variant: `ScoreBlock` or `DangerBlock` (`src/source/Block.js`
and its two subclasses). -/
inductive BlockKind
  | score
  | danger
deriving DecidableEq

/-- A falling block.  `id` models JavaScript object identity, `x`/`y` the
`canvasObject` position in canvas pixels, `size` the CSS-pixel size handed
to the `Block` constructor. -/
structure Block where
  id : ℕ
  kind : BlockKind
  x : ℚ
  y : ℚ
  size : ℚ
deriving DecidableEq

/-- State of a `BlockController` (`src/source/BlockController.js`,
constructor lines 53-101).  Pools are modelled as free lists. -/
structure BCState where
  isTouch : Bool
  dpr : ℚ
  level : ℚ
  numColumns : ℤ
  lastColumn : ℤ
  blockSize : ℚ
  blockOffset : ℚ
  blocks : List Block
  dangerZonePosition : ℚ
  initialCreateInterval : ℚ
  createInterval : ℚ
  initialBlockSpeedConst : ℚ
  initialBlockSpeed : ℚ
  maxBlockSpeed : ℚ
  blockSpeed : ℚ
  increaseSpeedEvery : ℤ
  increaseSpeedStep : ℤ
  scorePool : List Block
  dangerPool : List Block
deriving DecidableEq

/-- The `BlockController` constructor.  `stageWidth` is
`canvas.stage.width`; the ten preallocated blocks of each pool
(`scorePool.add(10)`, `dangerPool.add(10)`) are the factory-fresh blocks. -/
def mkBlockController (isTouch : Bool) (stageWidth dpr : ℚ) : BCState :=
  let numColumns : ℤ := 6
  let blockSize : ℚ := (stageWidth / dpr) / ((numColumns : ℚ) + 1)
  { isTouch := isTouch
    dpr := dpr
    level := 1
    numColumns := numColumns
    lastColumn := 1
    blockSize := blockSize
    blockOffset := blockSize / ((numColumns : ℚ) + 1)
    blocks := []
    dangerZonePosition := 0
    initialCreateInterval := if isTouch then 700 else 900
    createInterval := if isTouch then 700 else 900
    initialBlockSpeedConst := 2
    initialBlockSpeed := 2
    maxBlockSpeed := if isTouch then 7 else 5
    blockSpeed := 2
    increaseSpeedEvery := 2
    increaseSpeedStep := 0
    scorePool := (List.range 10).map
      (fun i => { id := i, kind := BlockKind.score, x := 0, y := 0, size := blockSize })
    dangerPool := (List.range 10).map
      (fun i => { id := i, kind := BlockKind.danger, x := 0, y := 0, size := blockSize }) }

/-- `BlockController.prototype.setLevel` (lines 109-121). -/
def setLevel (s : BCState) (level : ℚ) : BCState :=
  let speedConst := s.initialBlockSpeedConst
  let mx := s.maxBlockSpeed
  let ibs := if s.isTouch then min (speedConst + level * 0.75) mx
             else min (speedConst + level * 0.4) mx
  { s with
    level := level
    initialBlockSpeed := ibs
    blockSpeed := ibs
    increaseSpeedStep := 0
    createInterval := s.initialCreateInterval }

/-- `BlockController.prototype.setDangerZonePosition` (lines 128-130). -/
def setDangerZonePosition (s : BCState) (position : ℚ) : BCState :=
  { s with dangerZonePosition := position }

/-- `BlockController.prototype.increaseBlockSpeed` (lines 318-323):
clamps at `maxBlockSpeed` (divided by 1.5 below level 5), or at 10 when
forced. -/
def increaseBlockSpeed (s : BCState) (amount : ℚ) (force : Bool) : BCState :=
  let mx₁ := if s.level < 5 then s.maxBlockSpeed / 1.5 else s.maxBlockSpeed
  let mx₂ := if force then 10 else mx₁
  { s with blockSpeed := min (s.blockSpeed + amount) mx₂ }

/-- The level-dependent speed ceiling named by the design description:
`maxBlockSpeed` from level 5 on, `maxBlockSpeed / 1.5` below level 5
(the unforced clamp inside `increaseBlockSpeed`). -/
def speedCeiling (s : BCState) : ℚ :=
  if s.level < 5 then s.maxBlockSpeed / 1.5 else s.maxBlockSpeed

/-- The level-dependent spawn-interval floor used in
`BlockController.prototype.onClick` (lines 207-216). -/
def intervalFloor (isTouch : Bool) (level : ℚ) : ℚ :=
  if isTouch then 500 - level * 20 else 700 - level * 10

/-- `BlockController.prototype.getRandomInt` (lines 333-335):
`Math.floor(r * (max - min + 1) + min)` for a random draw `r ∈ [0, 1)`. -/
def getRandomInt (r : ℚ) (lo hi : ℤ) : ℤ :=
  ⌊r * ((hi : ℚ) - (lo : ℚ) + 1) + (lo : ℚ)⌋

/-- The column-selection loop of `addBlock` (lines 156-159):
`while (!column || column === this.lastColumn) column = getRandomInt(1, n)`.
The random draws are supplied as an explicit list; `none` means the finite
supply was exhausted before a fresh column appeared. -/
def pickColumn (numColumns lastColumn : ℤ) : List ℚ → Option ℤ
  | [] => none
  | r :: rs =>
      let c := getRandomInt r 1 numColumns
      if c = 0 ∨ c = lastColumn then pickColumn numColumns lastColumn rs
      else some c

/-- Modelled from the spec: `Pool.js` is not under `src/`.  Per §4.3,
`get()` returns a previously retired entity if one exists, otherwise
allocates a new one via the factory. -/
def poolGet (pool : List Block) (fresh : Block) : Block × List Block :=
  match pool with
  | [] => (fresh, [])
  | b :: rest => (b, rest)

/-- JavaScript `Array.prototype.indexOf`: index of the first occurrence,
`-1` when absent. -/
def jsIndexOf (l : List Block) (b : Block) : ℤ :=
  match l.findIdx? (fun x => decide (x = b)) with
  | some i => (i : ℤ)
  | none => -1

/-- JavaScript `array.splice(start, 1)`: a negative `start` counts from the
end of the array (clamped at 0), a `start` past the end removes nothing. -/
def spliceRemoveOne {α : Type} (l : List α) (start : ℤ) : List α :=
  let s := if start < 0 then ((l.length : ℤ) + start).toNat else start.toNat
  l.take s ++ l.drop (s + 1)

/-- `BlockController.prototype.removeBlock` (lines 178-189): the block is
returned to the pool of its variant, then removed from `blocks` at the
given index, or at `indexOf(block)` when no index was passed. -/
def removeBlock (s : BCState) (b : Block) (optIndex : Option ℤ) : BCState :=
  let s₁ := match b.kind with
    | BlockKind.score => { s with scorePool := s.scorePool ++ [b] }
    | BlockKind.danger => { s with dangerPool := s.dangerPool ++ [b] }
  let index := match optIndex with
    | some i => i
    | none => jsIndexOf s.blocks b
  { s₁ with blocks := spliceRemoveOne s₁.blocks index }

/-- `BlockController.prototype.addBlock` (lines 151-170).  The first random
draw decides the variant (`getRandomInt(0, 10) % 6` truthy means score
block), the remaining draws feed the column loop.  Returns the new state
together with the chosen column. -/
def addBlock (s : BCState) (rands : List ℚ) : Option (BCState × ℤ) :=
  match rands with
  | [] => none
  | r₀ :: rs =>
      let isScoreBlock : Bool := decide (getRandomInt r₀ 0 10 % 6 ≠ 0)
      let freshScore : Block :=
        { id := 0, kind := BlockKind.score, x := 0, y := 0, size := s.blockSize }
      let freshDanger : Block :=
        { id := 0, kind := BlockKind.danger, x := 0, y := 0, size := s.blockSize }
      let picked :=
        if isScoreBlock then
          let p := poolGet s.scorePool freshScore
          (p.1, p.2, s.dangerPool)
        else
          let p := poolGet s.dangerPool freshDanger
          (p.1, s.scorePool, p.2)
      match pickColumn s.numColumns s.lastColumn rs with
      | none => none
      | some column =>
          let x := ((column : ℚ) * s.blockOffset
                    + ((column : ℚ) - 1) * s.blockSize) * s.dpr
          let object := { picked.1 with x := x, y := -(picked.1.size) }
          some ({ s with
                  lastColumn := column
                  scorePool := picked.2.1
                  dangerPool := picked.2.2
                  blocks := s.blocks ++ [object] }, column)

/-- `BlockController.prototype.onClick` (lines 196-221): a score-block hit
emits `scoreblock-click`, every second hit nudges the speed up by
`min(level / 4, 2)` (both device profiles use the same amount), and the
spawn interval shrinks by `level² * 2.5` clamped at the level floor; a
danger-block hit only emits `dangerblock-click`.  Either way the block is
retired via `removeBlock`. -/
def onClick (s : BCState) (b : Block) : BCState :=
  if b.kind = BlockKind.score then
    let step := s.increaseSpeedStep + 1
    let s₁ :=
      if step = s.increaseSpeedEvery then
        increaseBlockSpeed { s with increaseSpeedStep := 0 }
          (min (s.level / 4) 2) false
      else { s with increaseSpeedStep := step }
    let mn := intervalFloor s.isTouch s.level
    let vl := s₁.createInterval - s.level * s.level * 2.5
    let s₂ := { s₁ with createInterval := max vl mn }
    removeBlock s₂ b none
  else
    removeBlock s b none

/-- Difficulty-relevant stimuli of a running level: a click on a block
(`onClick`) or the `scoreblock-reach-end` event fired by `gameTick`, whose
only handler (constructor lines 98-100) is a forced speed-up by 0.2. -/
inductive BCEvent
  | click (b : Block)
  | scoreBlockReachEnd
deriving DecidableEq

/-- Apply one stimulus to the controller state. -/
def applyEvent (s : BCState) : BCEvent → BCState
  | BCEvent.click b => onClick s b
  | BCEvent.scoreBlockReachEnd => increaseBlockSpeed s 0.2 true

/-- Apply a sequence of stimuli left to right. -/
def runEvents (s : BCState) (evs : List BCEvent) : BCState :=
  evs.foldl applyEvent s

/-- Whether a stimulus is a click (an interception), as opposed to a
threshold crossing. -/
def isClickEvent : BCEvent → Bool
  | BCEvent.click _ => true
  | BCEvent.scoreBlockReachEnd => false

/-- Advance a block by one tick of movement (`y += speed * dpr`,
`gameTick` line 236); `spd` is already the product `speed * dpr`. -/
def advanceBlock (spd : ℚ) (b : Block) : Block :=
  { b with y := b.y + spd }

/-- The strict danger-zone test of `gameTick` (line 238):
`block.canvasObject.y > dangerZonePosition`. -/
def pastDangerZone (dz : ℚ) (b : Block) : Bool :=
  decide (b.y > dz)

theorem spliceRemoveOne_natCast {α : Type} (l : List α) (i : ℕ) :
    spliceRemoveOne l (i : ℤ) = l.take i ++ l.drop (i + 1) := by
  have h : ¬ ((i : ℤ) < 0) := by exact_mod_cast Int.not_lt.mpr (Int.natCast_nonneg i)
  simp [spliceRemoveOne, h]

theorem length_spliceRemoveOne_natCast {α : Type} (l : List α) (i : ℕ)
    (h : i < l.length) :
    (spliceRemoveOne l (i : ℤ)).length = l.length - 1 := by
  rw [spliceRemoveOne_natCast]
  simp only [List.length_append, List.length_take, List.length_drop]
  omega

/-- The scan loop of `gameTick` (lines 234-247): the block at index `i` is
moved down; a block that passed the danger zone is spliced out at its
index, the scan backtracking one slot (`i--; l--`) so the element shifted
into the hole is visited next.  Returns the surviving array together with
the retired (already advanced) blocks in retirement order. -/
def gameTickGo (spd dz : ℚ) (blocks : List Block) (i : ℕ) :
    List Block × List Block :=
  if h : i < blocks.length then
    if pastDangerZone dz (advanceBlock spd (blocks.get ⟨i, h⟩)) then
      let next := gameTickGo spd dz
        (spliceRemoveOne (blocks.set i (advanceBlock spd (blocks.get ⟨i, h⟩))) (i : ℤ)) i
      (next.1, advanceBlock spd (blocks.get ⟨i, h⟩) :: next.2)
    else
      gameTickGo spd dz (blocks.set i (advanceBlock spd (blocks.get ⟨i, h⟩))) (i + 1)
  else (blocks, [])
termination_by blocks.length - i
decreasing_by
  · rw [length_spliceRemoveOne_natCast _ _ (by simpa using h)]
    simp only [List.length_set]
    omega
  · simp only [List.length_set]
    omega

theorem get_append_cons_self {α : Type} (pre post : List α) (b : α)
    (h : pre.length < (pre ++ b :: post).length) :
    (pre ++ b :: post).get ⟨pre.length, h⟩ = b := by
  induction pre with
  | nil => rfl
  | cons a t ih =>
      have h' : t.length < (t ++ b :: post).length := by
        simp only [List.length_append, List.length_cons]
        omega
      exact ih h'

theorem set_append_cons_self {α : Type} (pre post : List α) (b c : α) :
    (pre ++ b :: post).set pre.length c = pre ++ c :: post := by
  induction pre with
  | nil => rfl
  | cons a t ih => simp [ih]

theorem splice_append_cons_self {α : Type} (pre post : List α) (c : α) :
    spliceRemoveOne (pre ++ c :: post) (pre.length : ℤ) = pre ++ post := by
  rw [spliceRemoveOne_natCast]
  induction pre with
  | nil => rfl
  | cons a t ih => simp [ih]

/-- The scan loop, started anywhere, behaves like a stable filter on the
advanced suffix: no survivor is skipped or visited twice and every
crossing block is retired exactly once, in order. -/
theorem gameTickGo_spec (spd dz : ℚ) :
    ∀ (post pre : List Block),
      gameTickGo spd dz (pre ++ post) pre.length =
        (pre ++ (post.map (advanceBlock spd)).filter
            (fun b => !pastDangerZone dz b),
         (post.map (advanceBlock spd)).filter
            (fun b => pastDangerZone dz b)) := by
  intro post
  induction post with
  | nil =>
      intro pre
      rw [gameTickGo]
      simp
  | cons b rest ih =>
      intro pre
      rw [gameTickGo]
      have hlt : pre.length < (pre ++ b :: rest).length := by
        simp only [List.length_append, List.length_cons]
        omega
      rw [dif_pos hlt, get_append_cons_self, set_append_cons_self]
      by_cases hc : pastDangerZone dz (advanceBlock spd b) = true
      · rw [if_pos hc, splice_append_cons_self, ih pre]
        simp [hc]
      · rw [if_neg hc]
        have hc' : pastDangerZone dz (advanceBlock spd b) = false := by
          simpa using hc
        have h2 := ih (pre ++ [advanceBlock spd b])
        simp only [List.append_assoc, List.singleton_append,
          List.length_append, List.length_singleton] at h2
        rw [h2]
        simp [List.filter_cons, hc']

/-- Retirement effects for one crossed block, in source order (`gameTick`
lines 239-244): the reach-end emission first — whose only handler is the
forced 0.2 speed-up registered in the constructor for the score variant,
the danger variant having no handler — then `removeBlock`, which returns
the block to the pool of its variant. -/
def retireBlock (s : BCState) (b : Block) : BCState :=
  match b.kind with
  | BlockKind.score =>
      let s' := increaseBlockSpeed s 0.2 true
      { s' with scorePool := s'.scorePool ++ [b] }
  | BlockKind.danger => { s with dangerPool := s.dangerPool ++ [b] }

/-- `BlockController.prototype.gameTick` (lines 228-248).  The loop
captures `speed` once before scanning (`var speed = this.blockSpeed`);
the retirement effects touch only `blockSpeed` and the pools, which the
scan never reads, so they are applied after the scan in retirement order.
Returns the new state and the reach-end events (the variant of each
retired block, in order). -/
def gameTick (s : BCState) : BCState × List BlockKind :=
  let spd := s.blockSpeed * s.dpr
  let scan := gameTickGo spd s.dangerZonePosition s.blocks 0
  (scan.2.foldl retireBlock { s with blocks := scan.1 }, scan.2.map Block.kind)

theorem foldl_retireBlock (l : List Block) :
    ∀ st : BCState,
      ((l.foldl retireBlock st).blocks = st.blocks)
      ∧ ((l.foldl retireBlock st).scorePool
          = st.scorePool ++ l.filter (fun b => decide (b.kind = BlockKind.score)))
      ∧ ((l.foldl retireBlock st).dangerPool
          = st.dangerPool ++ l.filter (fun b => decide (b.kind = BlockKind.danger)))
      ∧ ((l.foldl retireBlock st).blockSpeed
          = l.foldl
              (fun v b => if b.kind = BlockKind.score then min (v + 0.2) 10 else v)
              st.blockSpeed) := by
  induction l with
  | nil => intro st; simp
  | cons b rest ih =>
      intro st
      obtain ⟨h1, h2, h3, h4⟩ := ih (retireBlock st b)
      refine ⟨?_, ?_, ?_, ?_⟩ <;>
        simp only [List.foldl_cons, h1, h2, h3, h4] <;>
        cases hk : b.kind <;>
        simp [retireBlock, increaseBlockSpeed, hk, List.filter_cons]

/-- Observable side effects the orchestration machine requests from its
presentation and simulation collaborators through events and calls. -/
inductive GCOutput
  | stopLevelPublished
  | gameAreaFadeOut
  | gameAreaFadeIn
  | gameAreaSetDangerZoneSize (size : ℚ)
  | dashboardHidePauseButton
  | showGameOverMenu (finalScore : ℤ)
  | showContinueMenu (levelsLeft : ℤ)
  | dashboardStopLevel
  | blockStopGame
  | blockEndLevel
  | dashboardSetTimerProgress (progress : ℚ)
  | dashboardSetLevel (level : ℤ)
  | dashboardSetScore (score : ℤ)
  | dashboardResumeGame
  | hideContinueMenu
  | blockSetLevel (level : ℤ)
  | blockSetDangerZonePosition
  | blockStartGame
deriving DecidableEq

/-- Session and timer state of a `GameController`
(`src/source/GameController.js`).  `startTime`, `lastTime` and
`rafPending` model the closure variables of `createTimer`
(lines 366-411): the two times are `null` (`none`) until first written,
`rafPending` records whether an animation-frame tick is scheduled. -/
structure GCState where
  canvas : Bool
  isGameInProgress : Bool
  isPaused : Bool
  score : ℤ
  level : ℤ
  totalLevels : ℤ
  levelProgress : ℚ
  levelTime : ℚ
  startTime : Option ℚ
  lastTime : Option ℚ
  rafPending : Bool
deriving DecidableEq

/-- The `GameController` constructor (lines 32-50). -/
def mkGameController : GCState :=
  { canvas := false
    isGameInProgress := false
    isPaused := false
    score := 0
    level := 1
    totalLevels := 10
    levelProgress := 0
    levelTime := 30
    startTime := none
    lastTime := none
    rafPending := false }

/-- Publication of the `stop-level` event, dispatching its handlers in
registration order (`initializeGame` calls `setupGameEvents`,
`addGameArea`, `addMenus`, `addDashboard`, `addBlockController` in that
order): clear `isGameInProgress` (line 466), fade out the game area
(line 294), then — lines 161-173 — show the game-over menu with the final
score when the current level is the last configured one, otherwise the
continue menu; finally forward to the dashboard (line 231) and stop and
clear the simulator (lines 343-346).  The event-bus dispatch itself is
modelled from the spec (§4.4, synchronous and in registration order), as
`EventEmitter.js` is not under `src/`. -/
def emitStopLevel (g : GCState) : GCState × List GCOutput :=
  let g₁ := { g with isGameInProgress := false }
  let menuOuts :=
    if g.level = g.totalLevels then
      [GCOutput.dashboardHidePauseButton, GCOutput.showGameOverMenu g.score]
    else
      [GCOutput.showContinueMenu (g.totalLevels - g.level)]
  (g₁, GCOutput.stopLevelPublished :: GCOutput.gameAreaFadeOut :: menuOuts
        ++ [GCOutput.dashboardStopLevel, GCOutput.blockStopGame,
            GCOutput.blockEndLevel])

/-- `startTimer` (lines 372-376): clear the start time, reset progress,
schedule a tick. -/
def startTimer (g : GCState) : GCState :=
  { g with startTime := none, levelProgress := 0, rafPending := true }

/-- `stopTimer` (lines 377-379): cancel the scheduled tick; nothing else
is touched, progress in particular survives. -/
def stopTimer (g : GCState) : GCState :=
  { g with rafPending := false }

/-- `resumeTimer` (lines 380-385), whose callback runs at frame time `t`:
shift `startTime` forward by the paused interval `t - lastTime` and
schedule the next tick; `null` times coerce to 0 as in JavaScript. -/
def resumeTimerAt (g : GCState) (t : ℚ) : GCState :=
  { g with
    startTime := some (g.startTime.getD 0 + (t - g.lastTime.getD 0))
    rafPending := true }

/-- `resetTimer` (lines 386-391): zero the published progress. -/
def resetTimer (g : GCState) : GCState × List GCOutput :=
  ({ g with levelProgress := 0 }, [GCOutput.dashboardSetTimerProgress 0])

/-- `timerTick` (lines 393-410) at frame time `t`: adopt `t` as start time
when none is set (the `timestamp && !startTime` test, where `null` and `0`
are both falsy), record `lastTime`, schedule the next frame, publish
progress `(t - startTime) / (levelTime * 1000)`, and at progress ≥ 1
cancel the just-scheduled frame and publish `stop-level`. -/
def timerTick (g : GCState) (t : ℚ) : GCState × List GCOutput :=
  let st := if t ≠ 0 ∧ g.startTime.getD 0 = 0 then some t else g.startTime
  let progress := (t - st.getD 0) / (g.levelTime * 1000)
  let g₁ := { g with
              startTime := st
              lastTime := some t
              rafPending := true
              levelProgress := progress }
  if progress ≥ 1 then
    let pub := emitStopLevel (stopTimer g₁)
    (pub.1, GCOutput.dashboardSetTimerProgress progress :: pub.2)
  else
    (g₁, [GCOutput.dashboardSetTimerProgress progress])

/-- A scheduled frame fires only while it stands: once cancelled
(`rafPending = false`), a tick takes no action at all. -/
def guardedTick (g : GCState) (t : ℚ) : GCState × List GCOutput :=
  if g.rafPending then timerTick g t else (g, [])

/-- Publication of the `action:start-next-level` continue intent,
handlers in registration order: reset the timer progress, increment the
level and mark the game in progress (lines 470-474); resize the danger
zone for the new level and fade the game area back in (lines 288, 306);
start hiding the continue menu (line 156); update the dashboard
(lines 215-218, 234-236). -/
def emitActionStartNextLevel (g : GCState) : GCState × List GCOutput :=
  let r := resetTimer g
  let g₁ := { r.1 with level := r.1.level + 1, isGameInProgress := true }
  (g₁, r.2 ++ [GCOutput.gameAreaSetDangerZoneSize ((g₁.level : ℚ) / 2 + 0.5),
       GCOutput.gameAreaFadeIn, GCOutput.hideContinueMenu,
       GCOutput.dashboardSetLevel g₁.level, GCOutput.dashboardSetScore g₁.score,
       GCOutput.dashboardResumeGame])

/-- Publication of `start-next-level`, fired when the continue-menu hide
animation completes: restart the level timer (line 476) and reconfigure
and start the simulator (lines 332-339). -/
def emitStartNextLevel (g : GCState) : GCState × List GCOutput :=
  (startTimer g,
   [GCOutput.blockSetLevel g.level, GCOutput.blockSetDangerZonePosition,
    GCOutput.blockStartGame])

/-- Setup operations `initializeGame` performs once the canvas guard has
passed. -/
inductive SetupStep
  | setScores
  | setupGameEvents
  | addGameArea
  | addMenus
  | addDashboard
  | addBlockController
  | setupKeyEvents
  | createTimer
deriving DecidableEq

/-- Error taxonomy of the orchestration machine: the only fatal
configuration error is a missing canvas. -/
inductive GCError
  | missingCanvas
deriving DecidableEq

/-- `GameController.prototype.initializeGame` (lines 56-79): throws when
no canvas is configured — before any setup runs — and otherwise performs
the setup sequence of lines 61-70. -/
def initializeGame (g : GCState) : Except GCError (List SetupStep) :=
  if g.canvas = false then Except.error GCError.missingCanvas
  else Except.ok
    [SetupStep.setScores, SetupStep.setupGameEvents, SetupStep.addGameArea,
     SetupStep.addMenus, SetupStep.addDashboard, SetupStep.addBlockController,
     SetupStep.setupKeyEvents, SetupStep.createTimer]

/-- The `initializeGame` of the earlier `GameController` iteration
(`src/unnamed/part_002`, lines 35-51): identical guard, shorter setup. -/
def initializeGameVariant (g : GCState) : Except GCError (List SetupStep) :=
  if g.canvas = false then Except.error GCError.missingCanvas
  else Except.ok
    [SetupStep.setupGameEvents, SetupStep.addMenus, SetupStep.setupKeyEvents]

/-- Score amounts configured at initialization (lines 61-62):
`scoreBlockScore` is attached to `score-increase` on `scoreblock-click`,
and the negation of `dangerBlockScore` to `score-decrease` on
`dangerblock-click` (lines 354-359). -/
def scoreBlockScore (isTouch : Bool) : ℤ := if isTouch then 10 else 15

/-- The (negative) danger-block score configured at initialization. -/
def dangerBlockScore (isTouch : Bool) : ℤ := if isTouch then -100 else -150

/-- A score intent published on the bus. -/
inductive ScoreEvent
  | increase
  | decrease
deriving DecidableEq

/-- The `score-increase` and `score-decrease` handlers (lines 480-486)
with the amounts the controller attaches: increase adds, decrease clamps
at zero (`Math.max(0, score - amount)`). -/
def applyScoreEvent (isTouch : Bool) (score : ℤ) : ScoreEvent → ℤ
  | ScoreEvent.increase => score + scoreBlockScore isTouch
  | ScoreEvent.decrease => max 0 (score - (- dangerBlockScore isTouch))

/-- The session score after a sequence of score intents, starting from the
constructor's 0. -/
def runScore (isTouch : Bool) (evs : List ScoreEvent) : ℤ :=
  evs.foldl (applyScoreEvent isTouch) 0

/-- A non-touch controller at level 5, the concrete setting of the speed
counterexample: initial speed `min(2 + 5*0.4, 5) = 4`. -/
def c2base : BCState := setLevel (mkBlockController false 320 1) 5

/-- A score block used for concrete interception runs. -/
def c2block : Block :=
  { id := 0, kind := BlockKind.score, x := 0, y := 0, size := 10 }

/-- `c2base` after six score blocks reached the end of the screen: each
crossing applies the forced `increaseBlockSpeed(0.2, true)`. -/
def c2crossed : BCState :=
  runEvents c2base
    [BCEvent.scoreBlockReachEnd, BCEvent.scoreBlockReachEnd,
     BCEvent.scoreBlockReachEnd, BCEvent.scoreBlockReachEnd,
     BCEvent.scoreBlockReachEnd, BCEvent.scoreBlockReachEnd]

/-- `c2crossed` after two further score-block interceptions (the second
one triggers the unforced, ceiling-clamped speed-up). -/
def c2clicked : BCState :=
  runEvents c2crossed [BCEvent.click c2block, BCEvent.click c2block]

/-- A non-touch controller at level 3, where the initial speed (3.2) sits
below the below-5 ceiling (10/3): the setting of the speed witness. -/
def c2w : BCState := setLevel (mkBlockController false 320 1) 3

/-- A fresh non-touch controller used for the concrete spawn runs. -/
def c3s0 : BCState := mkBlockController false 320 1

/-- A block that is never added to the active set. -/
def c8absent : Block :=
  { id := 100, kind := BlockKind.score, x := 0, y := 0, size := 10 }

/-- First of two active blocks in the `removeBlock` scenario. -/
def c8first : Block :=
  { id := 1, kind := BlockKind.score, x := 0, y := 5, size := 10 }

/-- Second (last) of two active blocks in the `removeBlock` scenario. -/
def c8last : Block :=
  { id := 2, kind := BlockKind.danger, x := 0, y := 9, size := 10 }

/-- A controller whose active set is `[c8first, c8last]`. -/
def c8state : BCState :=
  { mkBlockController false 320 1 with blocks := [c8first, c8last] }

/-- The active list advanced by the entry speed of one tick. -/
def tickAdvanced (s : BCState) : List Block :=
  s.blocks.map (advanceBlock (s.blockSpeed * s.dpr))

/-- A running game-controller state with a started timer, used for the
concrete timer-expiry run. -/
def c7g : GCState :=
  { mkGameController with startTime := some 100, rafPending := true }

/-- A controller at the last configured level (10 of 10). -/
def c7last : GCState := { mkGameController with level := 10 }

theorem foldl_applyScoreEvent_nonneg (isTouch : Bool) :
    ∀ (evs : List ScoreEvent) (s : ℤ), 0 ≤ s →
      0 ≤ evs.foldl (applyScoreEvent isTouch) s := by
  intro evs
  induction evs with
  | nil => intro s hs; simpa using hs
  | cons e rest ih =>
      intro s hs
      rw [List.foldl_cons]
      apply ih
      cases e with
      | increase =>
          cases isTouch <;> simp [applyScoreEvent, scoreBlockScore] <;> omega
      | decrease => simp [applyScoreEvent]

/-- C9: initializing the orchestration machine with no configured canvas
fails with the fatal `missingCanvas` configuration error, whose result by
construction carries no setup step — the guard throws before any setup
runs (source lines 56-59, and the `src/unnamed/part_002` variant) — while
with a canvas configured neither version of `initializeGame` raises this
error. -/
theorem C9_init_requires_canvas :
    (∀ g : GCState, g.canvas = false →
      initializeGame g = Except.error GCError.missingCanvas
      ∧ initializeGameVariant g = Except.error GCError.missingCanvas)
    ∧ (∀ g : GCState, g.canvas = true →
      initializeGame g ≠ Except.error GCError.missingCanvas
      ∧ initializeGameVariant g ≠ Except.error GCError.missingCanvas) := by
  constructor
  · intro g hg
    constructor <;> simp [initializeGame, initializeGameVariant, hg]
  · intro g hg
    constructor <;> simp [initializeGame, initializeGameVariant, hg]

/-- Witness for C9 at a concrete state: a fresh controller has no canvas
and fails to initialize, and the same controller with a canvas attached
does not raise the configuration error. -/
theorem C9_init_requires_canvas_witness :
    initializeGame mkGameController = Except.error GCError.missingCanvas
    ∧ initializeGame { mkGameController with canvas := true }
        ≠ Except.error GCError.missingCanvas :=
  ⟨(C9_init_requires_canvas.1 mkGameController rfl).1,
   (C9_init_requires_canvas.2 { mkGameController with canvas := true } rfl).1⟩

/-- C6: under every sequence of score-increase and score-decrease intents
with the amounts the controller attaches (score-block value for increases,
negated danger-block value for decreases), the session score stays a
non-negative integer; a decrease whose amount exceeds the current score
clamps it to exactly 0, and a single intent from a non-negative score
never produces a negative score. -/
theorem C6_score_clamped_nonneg :
    (∀ (isTouch : Bool) (evs : List ScoreEvent), 0 ≤ runScore isTouch evs)
    ∧ (∀ (isTouch : Bool) (s : ℤ), 0 ≤ s →
        s < - dangerBlockScore isTouch →
        applyScoreEvent isTouch s ScoreEvent.decrease = 0)
    ∧ (∀ (isTouch : Bool) (s : ℤ) (e : ScoreEvent), 0 ≤ s →
        0 ≤ applyScoreEvent isTouch s e) := by
  refine ⟨?_, ?_, ?_⟩
  · intro isTouch evs
    exact foldl_applyScoreEvent_nonneg isTouch evs 0 le_rfl
  · intro isTouch s _ hlt
    simp only [applyScoreEvent]
    omega
  · intro isTouch s e hs
    cases e with
    | increase =>
        cases isTouch <;> simp [applyScoreEvent, scoreBlockScore] <;> omega
    | decrease => simp [applyScoreEvent]

/-- Witness for C6 at concrete inputs: a non-touch run with one increase
(+15) and two decreases (−150 each, clamped) stays non-negative, and a
decrease from score 15 (amount 150 > 15) clamps to exactly 0. -/
theorem C6_score_clamped_nonneg_witness :
    0 ≤ runScore false
        [ScoreEvent.increase, ScoreEvent.decrease, ScoreEvent.decrease]
    ∧ applyScoreEvent false 15 ScoreEvent.decrease = 0 :=
  ⟨C6_score_clamped_nonneg.1 false
      [ScoreEvent.increase, ScoreEvent.decrease, ScoreEvent.decrease],
   C6_score_clamped_nonneg.2.1 false 15 (by decide) (by decide)⟩

/-- C8: evaluation at the failing input.  Retiring a block that is not in
the active set is NOT surfaced as an error: `indexOf` returns `-1`,
`splice(-1, 1)` deletes the LAST element of the array, so the unrelated
last active block `c8last` is silently removed while the absent block is
still returned to its pool (a double-release hazard).  This contradicts
the documented behaviour (removeBlock removes the given block) and the
design taxonomy item (b). -/
theorem C8_remove_absent_block_removes_last :
    (removeBlock c8state c8absent none).blocks = [c8first]
    ∧ (removeBlock c8state c8absent none).scorePool
        = c8state.scorePool ++ [c8absent] := by
  constructor <;> rfl

/-- C1: in every `gameTick`, each block active at the start of the tick is
advanced by the tick speed exactly once, and exactly those whose advanced
position strictly exceeds `dangerZonePosition` are retired in that same
tick: they are removed from the active array — the in-place splice with
`i--; l--` backtracking neither skips nor revisits any survivor, so the
survivors are precisely the stable filter of the advanced list — each is
returned to the pool of its variant, and exactly one reach-end event
tagged with its variant is emitted, in scan order. -/
theorem C1_tick_advances_and_retires (s : BCState) :
    ((gameTick s).1.blocks
      = (s.blocks.map (advanceBlock (s.blockSpeed * s.dpr))).filter
          (fun b => !pastDangerZone s.dangerZonePosition b))
    ∧ ((gameTick s).2
      = ((s.blocks.map (advanceBlock (s.blockSpeed * s.dpr))).filter
          (fun b => pastDangerZone s.dangerZonePosition b)).map Block.kind)
    ∧ ((gameTick s).1.scorePool
      = s.scorePool
        ++ ((s.blocks.map (advanceBlock (s.blockSpeed * s.dpr))).filter
            (fun b => pastDangerZone s.dangerZonePosition b)).filter
            (fun b => decide (b.kind = BlockKind.score)))
    ∧ ((gameTick s).1.dangerPool
      = s.dangerPool
        ++ ((s.blocks.map (advanceBlock (s.blockSpeed * s.dpr))).filter
            (fun b => pastDangerZone s.dangerZonePosition b)).filter
            (fun b => decide (b.kind = BlockKind.danger))) := by
  have hspec : gameTickGo (s.blockSpeed * s.dpr) s.dangerZonePosition s.blocks 0
      = ((tickAdvanced s).filter (fun b => !pastDangerZone s.dangerZonePosition b),
         (tickAdvanced s).filter (fun b => pastDangerZone s.dangerZonePosition b)) := by
    have h := gameTickGo_spec (s.blockSpeed * s.dpr) s.dangerZonePosition
      s.blocks []
    simpa [tickAdvanced] using h
  obtain ⟨hb, hsp, hdp, _⟩ := foldl_retireBlock
    ((tickAdvanced s).filter (fun b => pastDangerZone s.dangerZonePosition b))
    { s with blocks := (tickAdvanced s).filter (fun b => !pastDangerZone s.dangerZonePosition b) }
  simp only [gameTick, hspec]
  exact ⟨hb, rfl, hsp, hdp⟩

/-- C10 (implicit): the scan of one `gameTick` uses the speed captured at
the start of the tick (`var speed = this.blockSpeed`) for every block —
the survivors are exactly the stable filter of the list advanced by that
entry speed — while any speed change performed synchronously by the
reach-end handlers during the tick lands only in the state's `blockSpeed`
(folded over the emitted events), which the next tick will read. -/
theorem C10_speed_captured_at_tick_start (s : BCState) :
    ((gameTick s).1.blocks
      = (s.blocks.map (advanceBlock (s.blockSpeed * s.dpr))).filter
          (fun b => !pastDangerZone s.dangerZonePosition b))
    ∧ ((gameTick s).1.blockSpeed
      = (gameTick s).2.foldl
          (fun v k => if k = BlockKind.score then min (v + 0.2) 10 else v)
          s.blockSpeed) := by
  have hspec : gameTickGo (s.blockSpeed * s.dpr) s.dangerZonePosition s.blocks 0
      = ((tickAdvanced s).filter (fun b => !pastDangerZone s.dangerZonePosition b),
         (tickAdvanced s).filter (fun b => pastDangerZone s.dangerZonePosition b)) := by
    have h := gameTickGo_spec (s.blockSpeed * s.dpr) s.dangerZonePosition
      s.blocks []
    simpa [tickAdvanced] using h
  obtain ⟨hb, _, _, hv⟩ := foldl_retireBlock
    ((tickAdvanced s).filter (fun b => pastDangerZone s.dangerZonePosition b))
    { s with blocks := (tickAdvanced s).filter (fun b => !pastDangerZone s.dangerZonePosition b) }
  simp only [gameTick, hspec]
  refine ⟨hb, ?_⟩
  rw [hv, List.foldl_map]

theorem getRandomInt_bounds (r : ℚ) (n : ℤ) (h0 : 0 ≤ r) (h1 : r < 1)
    (hn : 1 ≤ n) :
    1 ≤ getRandomInt r 1 n ∧ getRandomInt r 1 n ≤ n := by
  have hn' : (0 : ℚ) < (n : ℚ) := by exact_mod_cast Int.lt_of_lt_of_le zero_lt_one hn
  constructor
  · apply Int.le_floor.mpr
    push_cast
    nlinarith [mul_nonneg h0 hn'.le]
  · apply Int.lt_add_one_iff.mp
    apply Int.floor_lt.mpr
    push_cast
    nlinarith [mul_lt_mul_of_pos_right h1 hn']

theorem pickColumn_spec (n last : ℤ) (hn : 1 ≤ n) :
    ∀ (rs : List ℚ) (c : ℤ),
      (∀ r ∈ rs, 0 ≤ r ∧ r < 1) →
      pickColumn n last rs = some c →
      c ≠ last ∧ 1 ≤ c ∧ c ≤ n := by
  intro rs
  induction rs with
  | nil => intro c _ h; simp [pickColumn] at h
  | cons r rest ih =>
      intro c hr h
      simp only [pickColumn] at h
      by_cases hcase : getRandomInt r 1 n = 0 ∨ getRandomInt r 1 n = last
      · rw [if_pos hcase] at h
        exact ih c (fun x hx => hr x (List.mem_cons_of_mem r hx)) h
      · rw [if_neg hcase] at h
        obtain ⟨hr0, hr1⟩ := hr r (List.mem_cons_self r rest)
        have hb := getRandomInt_bounds r n hr0 hr1 hn
        push_neg at hcase
        cases h
        exact ⟨hcase.2, hb.1, hb.2⟩

theorem addBlock_column (s : BCState) (rands : List ℚ) (s' : BCState)
    (c : ℤ) (hr : ∀ r ∈ rands, 0 ≤ r ∧ r < 1) (hn : 1 ≤ s.numColumns)
    (h : addBlock s rands = some (s', c)) :
    c ≠ s.lastColumn ∧ 1 ≤ c ∧ c ≤ s.numColumns
    ∧ s'.lastColumn = c ∧ s'.numColumns = s.numColumns := by
  cases rands with
  | nil => simp [addBlock] at h
  | cons r₀ rs =>
      simp only [addBlock] at h
      cases hp : pickColumn s.numColumns s.lastColumn rs with
      | none => rw [hp] at h; simp at h
      | some column =>
          rw [hp] at h
          simp only [Option.some.injEq, Prod.mk.injEq] at h
          obtain ⟨hs', hc⟩ := h
          subst hs'
          subst hc
          have hcol := pickColumn_spec s.numColumns s.lastColumn hn rs column
            (fun x hx => hr x (List.mem_cons_of_mem r₀ hx)) hp
          exact ⟨hcol.1, hcol.2.1, hcol.2.2, rfl, rfl⟩

/-- C3: for any two consecutive spawns (successful `addBlock` calls, with
random draws in `[0, 1)`), the second spawn's column differs from the
first one's, and both chosen columns lie in `1..numColumns` — the
anti-repeat `while` loop rejects the previous column unconditionally, not
merely with high probability. -/
theorem C3_no_consecutive_column_repeat
    (s : BCState) (rands₁ rands₂ : List ℚ) (s₁ s₂ : BCState) (c₁ c₂ : ℤ)
    (hr₁ : ∀ r ∈ rands₁, 0 ≤ r ∧ r < 1)
    (hr₂ : ∀ r ∈ rands₂, 0 ≤ r ∧ r < 1)
    (hn : 1 ≤ s.numColumns)
    (h₁ : addBlock s rands₁ = some (s₁, c₁))
    (h₂ : addBlock s₁ rands₂ = some (s₂, c₂)) :
    c₂ ≠ c₁ ∧ 1 ≤ c₁ ∧ c₁ ≤ s.numColumns ∧ 1 ≤ c₂ ∧ c₂ ≤ s.numColumns := by
  obtain ⟨hne₁, hlo₁, hhi₁, hlast₁, hcols₁⟩ :=
    addBlock_column s rands₁ s₁ c₁ hr₁ hn h₁
  obtain ⟨hne₂, hlo₂, hhi₂, _, _⟩ :=
    addBlock_column s₁ rands₂ s₂ c₂ hr₂ (by rw [hcols₁]; exact hn) h₂
  rw [hlast₁] at hne₂
  rw [hcols₁] at hhi₂
  exact ⟨hne₂, hlo₁, hhi₁, hlo₂, hhi₂⟩

/-- Witness for C3 at a concrete run: from a fresh controller (previous
column 1), the draws `[0, 1/2]` spawn in column 4 and the draws
`[0, 5/6]` then spawn in column 6 ≠ 4, both within `1..6`. -/
theorem C3_no_consecutive_column_repeat_witness :
    (6 : ℤ) ≠ 4 ∧ (1 : ℤ) ≤ 4 ∧ (4 : ℤ) ≤ c3s0.numColumns
    ∧ (1 : ℤ) ≤ 6 ∧ (6 : ℤ) ≤ c3s0.numColumns := by
  have hg0 : getRandomInt 0 0 10 = 0 := by
    rw [getRandomInt, Int.floor_eq_iff]
    norm_num
  have hg4 : getRandomInt (1/2) 1 6 = 4 := by
    rw [getRandomInt, Int.floor_eq_iff]
    norm_num
  have hg6 : getRandomInt (5/6) 1 6 = 6 := by
    rw [getRandomInt, Int.floor_eq_iff]
    norm_num
  have hr₁ : ∀ r ∈ ([0, 1/2] : List ℚ), 0 ≤ r ∧ r < 1 := by
    intro r hr
    simp only [List.mem_cons, List.not_mem_nil, or_false] at hr
    rcases hr with rfl | rfl <;> norm_num
  have hr₂ : ∀ r ∈ ([0, 5/6] : List ℚ), 0 ≤ r ∧ r < 1 := by
    intro r hr
    simp only [List.mem_cons, List.not_mem_nil, or_false] at hr
    rcases hr with rfl | rfl <;> norm_num
  have hn : (1 : ℤ) ≤ c3s0.numColumns := by decide
  have hcols : c3s0.numColumns = 6 := by decide
  have hlast : c3s0.lastColumn = 1 := by decide
  have hp₁ : pickColumn c3s0.numColumns c3s0.lastColumn [1/2] = some 4 := by
    rw [hcols, hlast]
    simp only [pickColumn, hg4]
    norm_num
  have h₁ : ∃ s₁, addBlock c3s0 [0, 1/2] = some (s₁, 4) := by
    simp only [addBlock, hp₁, hg0]
    exact ⟨_, rfl⟩
  obtain ⟨s₁, h₁⟩ := h₁
  obtain ⟨_, _, _, hlast₁, hcols₁⟩ := addBlock_column c3s0 [0, 1/2] s₁ 4 hr₁ hn h₁
  have hp₂ : pickColumn s₁.numColumns s₁.lastColumn [5/6] = some 6 := by
    rw [hcols₁, hcols, hlast₁]
    simp only [pickColumn, hg6]
    norm_num
  have h₂ : ∃ s₂, addBlock s₁ [0, 5/6] = some (s₂, 6) := by
    simp only [addBlock, hp₂, hg0]
    exact ⟨_, rfl⟩
  obtain ⟨s₂, h₂⟩ := h₂
  exact C3_no_consecutive_column_repeat c3s0 [0, 1/2] [0, 5/6] s₁ s₂ 4 6
    hr₁ hr₂ hn h₁ h₂

theorem runEvents_cons (s : BCState) (e : BCEvent) (evs : List BCEvent) :
    runEvents s (e :: evs) = runEvents (applyEvent s e) evs := rfl

theorem applyEvent_fixed (s : BCState) (e : BCEvent) :
    (applyEvent s e).level = s.level
    ∧ (applyEvent s e).isTouch = s.isTouch
    ∧ (applyEvent s e).maxBlockSpeed = s.maxBlockSpeed
    ∧ (applyEvent s e).increaseSpeedEvery = s.increaseSpeedEvery
    ∧ (applyEvent s e).initialCreateInterval = s.initialCreateInterval := by
  cases e with
  | scoreBlockReachEnd => simp [applyEvent, increaseBlockSpeed]
  | click b =>
      cases hk : b.kind <;>
        by_cases hstep : s.increaseSpeedStep + 1 = s.increaseSpeedEvery <;>
        simp [applyEvent, onClick, hk, hstep, increaseBlockSpeed, removeBlock]

theorem speedCeiling_applyEvent (s : BCState) (e : BCEvent) :
    speedCeiling (applyEvent s e) = speedCeiling s := by
  obtain ⟨h1, _, h3, _, _⟩ := applyEvent_fixed s e
  simp [speedCeiling, h1, h3]

theorem applyEvent_reachEnd_speed (s : BCState) :
    (applyEvent s BCEvent.scoreBlockReachEnd).blockSpeed
      = min (s.blockSpeed + 0.2) 10 := by
  simp [applyEvent, increaseBlockSpeed]

theorem applyEvent_click_speed (s : BCState) (b : Block) :
    (applyEvent s (BCEvent.click b)).blockSpeed = s.blockSpeed
    ∨ (applyEvent s (BCEvent.click b)).blockSpeed
        = min (s.blockSpeed + min (s.level / 4) 2) (speedCeiling s) := by
  cases hk : b.kind with
  | danger =>
      left
      simp [applyEvent, onClick, hk, removeBlock]
  | score =>
      by_cases hstep : s.increaseSpeedStep + 1 = s.increaseSpeedEvery
      · right
        simp [applyEvent, onClick, hk, hstep, increaseBlockSpeed, removeBlock,
          speedCeiling]
      · left
        simp [applyEvent, onClick, hk, hstep, removeBlock]

theorem speedCeiling_le_ten (s : BCState) (_h0 : 0 ≤ s.maxBlockSpeed)
    (h10 : s.maxBlockSpeed ≤ 10) : speedCeiling s ≤ 10 := by
  unfold speedCeiling
  split_ifs
  · rw [show (1.5 : ℚ) = 3 / 2 by norm_num,
      div_le_iff₀ (by norm_num : (0 : ℚ) < 3 / 2)]
    linarith
  · exact h10

theorem runEvents_speed_le_ten (evs : List BCEvent) :
    ∀ s : BCState, 0 ≤ s.maxBlockSpeed → s.maxBlockSpeed ≤ 10 →
      s.blockSpeed ≤ 10 → (runEvents s evs).blockSpeed ≤ 10 := by
  induction evs with
  | nil => intro s _ _ hs; exact hs
  | cons e rest ih =>
      intro s h0 h10 hs
      rw [runEvents_cons]
      obtain ⟨_, _, hmax, _, _⟩ := applyEvent_fixed s e
      refine ih _ (by rw [hmax]; exact h0) (by rw [hmax]; exact h10) ?_
      cases e with
      | scoreBlockReachEnd =>
          rw [applyEvent_reachEnd_speed]
          exact min_le_right _ _
      | click b =>
          rcases applyEvent_click_speed s b with h | h <;> rw [h]
          · exact hs
          · exact le_trans (min_le_right _ _) (speedCeiling_le_ten s h0 h10)

theorem runEvents_clicks_speed (evs : List BCEvent) :
    ∀ s : BCState, 0 ≤ s.level → s.blockSpeed ≤ speedCeiling s →
      (∀ e ∈ evs, isClickEvent e = true) →
      s.blockSpeed ≤ (runEvents s evs).blockSpeed
      ∧ (runEvents s evs).blockSpeed ≤ speedCeiling s := by
  induction evs with
  | nil => intro s _ hs _; exact ⟨le_rfl, hs⟩
  | cons e rest ih =>
      intro s hlvl hceil hclick
      rw [runEvents_cons]
      cases e with
      | scoreBlockReachEnd =>
          exact absurd (hclick _ (List.mem_cons_self _ _)) (by simp [isClickEvent])
      | click b =>
          obtain ⟨hlev, _, _, _, _⟩ := applyEvent_fixed s (BCEvent.click b)
          have hceq := speedCeiling_applyEvent s (BCEvent.click b)
          have hstep : s.blockSpeed ≤ (applyEvent s (BCEvent.click b)).blockSpeed
              ∧ (applyEvent s (BCEvent.click b)).blockSpeed ≤ speedCeiling s := by
            rcases applyEvent_click_speed s b with h | h <;> rw [h]
            · exact ⟨le_rfl, hceil⟩
            · constructor
              · refine le_min ?_ hceil
                have hnn : 0 ≤ min (s.level / 4) 2 :=
                  le_min (div_nonneg hlvl (by norm_num)) (by norm_num)
                linarith
              · exact min_le_right _ _
          have ihres := ih (applyEvent s (BCEvent.click b))
            (by rw [hlev]; exact hlvl)
            (by rw [hceq]; exact hstep.2)
            (fun x hx => hclick x (List.mem_cons_of_mem _ hx))
          refine ⟨le_trans hstep.1 ihres.1, ?_⟩
          rw [← hceq]
          exact ihres.2

/-- C2 (amended): within a single level the fall speed never exceeds 10 —
the cap used by the forced speed-up that threshold crossings apply
(`increaseBlockSpeed(0.2, true)` ignores the level ceiling and uses 10) —
and whenever the current speed is at or below the level-dependent
interception ceiling (`maxBlockSpeed` from level 5 on, `maxBlockSpeed/1.5`
below), any sequence consisting only of interceptions keeps the speed
monotonically non-decreasing and at or below that ceiling.  The original
claim fails in two ways witnessed by the counterexample: crossings are
clamped at 10, not at the ceiling, and at level 4 the post-`setLevel`
speed already exceeds the below-5 ceiling, after which an interception can
lower the speed back to the ceiling. -/
theorem C2_speed_bounds_amended :
    (∀ (s : BCState) (evs : List BCEvent),
      0 ≤ s.maxBlockSpeed → s.maxBlockSpeed ≤ 10 → s.blockSpeed ≤ 10 →
      (runEvents s evs).blockSpeed ≤ 10)
    ∧ (∀ (s : BCState) (evs : List BCEvent),
      0 ≤ s.level → s.blockSpeed ≤ speedCeiling s →
      (∀ e ∈ evs, isClickEvent e = true) →
      s.blockSpeed ≤ (runEvents s evs).blockSpeed
      ∧ (runEvents s evs).blockSpeed ≤ speedCeiling s) :=
  ⟨fun s evs h0 h10 hs => runEvents_speed_le_ten evs s h0 h10 hs,
   fun s evs hl hc hcl => runEvents_clicks_speed evs s hl hc hcl⟩

theorem applyEvent_click_score_noStep (s : BCState) (b : Block)
    (hk : b.kind = BlockKind.score)
    (hstep : ¬ s.increaseSpeedStep + 1 = s.increaseSpeedEvery) :
    (applyEvent s (BCEvent.click b)).blockSpeed = s.blockSpeed
    ∧ (applyEvent s (BCEvent.click b)).increaseSpeedStep
        = s.increaseSpeedStep + 1
    ∧ (applyEvent s (BCEvent.click b)).increaseSpeedEvery
        = s.increaseSpeedEvery
    ∧ (applyEvent s (BCEvent.click b)).level = s.level
    ∧ (applyEvent s (BCEvent.click b)).maxBlockSpeed = s.maxBlockSpeed := by
  simp [applyEvent, onClick, hk, hstep, removeBlock]

theorem applyEvent_click_score_step (s : BCState) (b : Block)
    (hk : b.kind = BlockKind.score)
    (hstep : s.increaseSpeedStep + 1 = s.increaseSpeedEvery) :
    (applyEvent s (BCEvent.click b)).blockSpeed
      = min (s.blockSpeed + min (s.level / 4) 2) (speedCeiling s) := by
  simp [applyEvent, onClick, hk, hstep, increaseBlockSpeed, removeBlock,
    speedCeiling]

/-- Counterexample to C2 as stated.  Non-touch profile: after
`setLevel(5)` the speed is 4 and the claimed ceiling is `maxBlockSpeed`
= 5, yet six threshold crossings (forced `increaseBlockSpeed(0.2, true)`)
push the speed to 5.2 > 5; two subsequent score interceptions then LOWER
the speed back to the ceiling 5 < 5.2, breaking monotonicity; and already
`setLevel(4)` alone yields speed 3.6 above the below-5 ceiling
`5 / 1.5`. -/
theorem C2_speed_counterexample :
    c2crossed.blockSpeed = 26 / 5
    ∧ speedCeiling c2crossed = 5
    ∧ ¬ c2crossed.blockSpeed ≤ speedCeiling c2crossed
    ∧ c2clicked.blockSpeed = 5
    ∧ c2clicked.blockSpeed < c2crossed.blockSpeed
    ∧ ¬ (setLevel (mkBlockController false 320 1) 4).blockSpeed
        ≤ speedCeiling (setLevel (mkBlockController false 320 1) 4) := by
  have hbase : c2base.blockSpeed = 4 := by
    norm_num [c2base, setLevel, mkBlockController, min_def]
  have hcl : c2crossed.level = 5 := rfl
  have hmaxc : c2crossed.maxBlockSpeed = 5 := rfl
  have hstep0 : c2crossed.increaseSpeedStep = 0 := rfl
  have hevery : c2crossed.increaseSpeedEvery = 2 := rfl
  have hc2 : c2crossed.blockSpeed = 26 / 5 := by
    show (runEvents c2base _).blockSpeed = 26 / 5
    simp only [runEvents, List.foldl_cons, List.foldl_nil, applyEvent,
      increaseBlockSpeed, if_true]
    norm_num [hbase, min_def]
  have hceil : speedCeiling c2crossed = 5 := by
    rw [speedCeiling, hcl, hmaxc]
    norm_num
  have hkind : c2block.kind = BlockKind.score := rfl
  have hns := applyEvent_click_score_noStep c2crossed c2block hkind
    (by rw [hstep0, hevery]; norm_num)
  have hcond : (applyEvent c2crossed (BCEvent.click c2block)).increaseSpeedStep + 1
      = (applyEvent c2crossed (BCEvent.click c2block)).increaseSpeedEvery := by
    rw [hns.2.1, hns.2.2.1, hstep0, hevery]
    norm_num
  have hstep2 := applyEvent_click_score_step
    (applyEvent c2crossed (BCEvent.click c2block)) c2block hkind hcond
  have hceil₁ : speedCeiling (applyEvent c2crossed (BCEvent.click c2block)) = 5 := by
    rw [speedCeiling, hns.2.2.2.1, hns.2.2.2.2, hcl, hmaxc]
    norm_num
  have hclicked : c2clicked.blockSpeed = 5 := by
    show (applyEvent (applyEvent c2crossed (BCEvent.click c2block))
      (BCEvent.click c2block)).blockSpeed = 5
    rw [hstep2, hceil₁, hns.1, hc2, hns.2.2.2.1, hcl]
    norm_num [min_def]
  have h4 : ¬ (setLevel (mkBlockController false 320 1) 4).blockSpeed
      ≤ speedCeiling (setLevel (mkBlockController false 320 1) 4) := by
    have hl4 : (setLevel (mkBlockController false 320 1) 4).level = 4 := rfl
    have hm4 : (setLevel (mkBlockController false 320 1) 4).maxBlockSpeed = 5 := rfl
    have hb4 : (setLevel (mkBlockController false 320 1) 4).blockSpeed = 18 / 5 := by
      norm_num [setLevel, mkBlockController, min_def]
    rw [speedCeiling, hl4, hm4, hb4]
    norm_num
  refine ⟨hc2, hceil, ?_, hclicked, ?_, h4⟩
  · rw [hc2, hceil]; norm_num
  · rw [hc2, hclicked]; norm_num

/-- Witness for the amended C2 at concrete inputs: at level 3 (non-touch,
initial speed 16/5 ≤ ceiling 10/3) a crossing-free interception sequence
keeps the speed monotone and under the ceiling, and any event sequence
keeps it under 10. -/
theorem C2_speed_bounds_amended_witness :
    (runEvents c2w [BCEvent.scoreBlockReachEnd, BCEvent.click c2block]).blockSpeed ≤ 10
    ∧ c2w.blockSpeed ≤ (runEvents c2w [BCEvent.click c2block]).blockSpeed
    ∧ (runEvents c2w [BCEvent.click c2block]).blockSpeed ≤ speedCeiling c2w := by
  have hm : c2w.maxBlockSpeed = 5 := rfl
  have hl : c2w.level = 3 := rfl
  have hb : c2w.blockSpeed = 16 / 5 := by
    norm_num [c2w, setLevel, mkBlockController, min_def]
  have hceilw : c2w.blockSpeed ≤ speedCeiling c2w := by
    rw [speedCeiling, hl, hm, hb]
    norm_num
  have h1 := C2_speed_bounds_amended.1 c2w
    [BCEvent.scoreBlockReachEnd, BCEvent.click c2block]
    (by rw [hm]; norm_num) (by rw [hm]; norm_num) (by rw [hb]; norm_num)
  have h2 := C2_speed_bounds_amended.2 c2w [BCEvent.click c2block]
    (by rw [hl]; norm_num) hceilw
    (by intro e he; simp only [List.mem_cons, List.not_mem_nil, or_false] at he
        subst he; rfl)
  exact ⟨h1, h2.1, h2.2⟩

theorem applyEvent_interval (s : BCState) (e : BCEvent) :
    (applyEvent s e).createInterval = s.createInterval
    ∨ (applyEvent s e).createInterval
        = max (s.createInterval - s.level * s.level * 2.5)
            (intervalFloor s.isTouch s.level) := by
  cases e with
  | scoreBlockReachEnd => left; simp [applyEvent, increaseBlockSpeed]
  | click b =>
      cases hk : b.kind with
      | danger => left; simp [applyEvent, onClick, hk, removeBlock]
      | score =>
          right
          by_cases hstep : s.increaseSpeedStep + 1 = s.increaseSpeedEvery <;>
            simp [applyEvent, onClick, hk, hstep, increaseBlockSpeed, removeBlock]

theorem runEvents_fixed (evs : List BCEvent) :
    ∀ s : BCState,
      (runEvents s evs).level = s.level
      ∧ (runEvents s evs).isTouch = s.isTouch := by
  induction evs with
  | nil => intro s; exact ⟨rfl, rfl⟩
  | cons e rest ih =>
      intro s
      rw [runEvents_cons]
      obtain ⟨h1, h2, _, _, _⟩ := applyEvent_fixed s e
      obtain ⟨ih1, ih2⟩ := ih (applyEvent s e)
      exact ⟨ih1.trans h1, ih2.trans h2⟩

theorem applyEvent_interval_le (s : BCState) (e : BCEvent)
    (h : intervalFloor s.isTouch s.level ≤ s.createInterval) :
    (applyEvent s e).createInterval ≤ s.createInterval := by
  rcases applyEvent_interval s e with hh | hh <;> rw [hh]
  refine max_le ?_ h
  nlinarith [mul_self_nonneg s.level]

theorem runEvents_interval (evs : List BCEvent) :
    ∀ s : BCState,
      intervalFloor s.isTouch s.level ≤ s.createInterval →
      intervalFloor s.isTouch s.level ≤ (runEvents s evs).createInterval
      ∧ (runEvents s evs).createInterval ≤ s.createInterval := by
  induction evs with
  | nil => intro s h; exact ⟨h, le_rfl⟩
  | cons e rest ih =>
      intro s h
      rw [runEvents_cons]
      obtain ⟨hlev, htouch, _, _, _⟩ := applyEvent_fixed s e
      have hfe : intervalFloor (applyEvent s e).isTouch (applyEvent s e).level
          = intervalFloor s.isTouch s.level := by rw [hlev, htouch]
      have hge : intervalFloor s.isTouch s.level ≤ (applyEvent s e).createInterval := by
        rcases applyEvent_interval s e with hh | hh <;> rw [hh]
        · exact h
        · exact le_max_right _ _
      have hle := applyEvent_interval_le s e h
      have ihres := ih (applyEvent s e) (by rw [hfe]; exact hge)
      exact ⟨by rw [← hfe]; exact ihres.1, le_trans ihres.2 hle⟩

/-- C4: within a single level (a state freshly produced by `setLevel`),
under every sequence of stimuli the spawn interval never drops below the
level floor (`500 - level*20` on the touch profile, `700 - level*10`
otherwise), never becomes negative for the game's configured levels
(1 through `totalLevels` = 10), and is monotonically non-increasing: one
more event never increases it. -/
theorem C4_interval_monotone_floored
    (isTouch : Bool) (w dpr lvl : ℚ) (evs : List BCEvent) (e : BCEvent)
    (h1 : 1 ≤ lvl) (h10 : lvl ≤ 10) :
    intervalFloor isTouch lvl
      ≤ (runEvents (setLevel (mkBlockController isTouch w dpr) lvl) evs).createInterval
    ∧ 0 ≤ (runEvents (setLevel (mkBlockController isTouch w dpr) lvl) evs).createInterval
    ∧ (runEvents (setLevel (mkBlockController isTouch w dpr) lvl) (evs ++ [e])).createInterval
        ≤ (runEvents (setLevel (mkBlockController isTouch w dpr) lvl) evs).createInterval := by
  have htouch : (setLevel (mkBlockController isTouch w dpr) lvl).isTouch = isTouch := rfl
  have hlev : (setLevel (mkBlockController isTouch w dpr) lvl).level = lvl := rfl
  have hint : (setLevel (mkBlockController isTouch w dpr) lvl).createInterval
      = if isTouch then 700 else 900 := rfl
  have hfl0 : intervalFloor (setLevel (mkBlockController isTouch w dpr) lvl).isTouch
      (setLevel (mkBlockController isTouch w dpr) lvl).level
      ≤ (setLevel (mkBlockController isTouch w dpr) lvl).createInterval := by
    rw [htouch, hlev, hint, intervalFloor]
    cases isTouch <;> simp <;> linarith
  have hrun := runEvents_interval evs _ hfl0
  have hmain : intervalFloor isTouch lvl
      ≤ (runEvents (setLevel (mkBlockController isTouch w dpr) lvl) evs).createInterval := by
    have hh := hrun.1
    rw [htouch, hlev] at hh
    exact hh
  have hflnn : 0 ≤ intervalFloor isTouch lvl := by
    rw [intervalFloor]
    cases isTouch <;> simp <;> linarith
  refine ⟨hmain, le_trans hflnn hmain, ?_⟩
  have happ : runEvents (setLevel (mkBlockController isTouch w dpr) lvl) (evs ++ [e])
      = applyEvent (runEvents (setLevel (mkBlockController isTouch w dpr) lvl) evs) e := by
    simp [runEvents, List.foldl_append]
  rw [happ]
  obtain ⟨hfl, hft⟩ := runEvents_fixed evs (setLevel (mkBlockController isTouch w dpr) lvl)
  apply applyEvent_interval_le
  rw [hfl, hft, htouch, hlev]
  exact hmain

/-- Witness for C4 at concrete inputs: touch profile, level 3, one score
interception performed and one more appended. -/
theorem C4_interval_monotone_floored_witness :
    intervalFloor true 3
      ≤ (runEvents (setLevel (mkBlockController true 320 2) 3)
          [BCEvent.click c2block]).createInterval
    ∧ 0 ≤ (runEvents (setLevel (mkBlockController true 320 2) 3)
          [BCEvent.click c2block]).createInterval
    ∧ (runEvents (setLevel (mkBlockController true 320 2) 3)
          ([BCEvent.click c2block] ++ [BCEvent.click c2block])).createInterval
        ≤ (runEvents (setLevel (mkBlockController true 320 2) 3)
          [BCEvent.click c2block]).createInterval :=
  C4_interval_monotone_floored true 320 2 3 [BCEvent.click c2block]
    (BCEvent.click c2block) (by norm_num) (by norm_num)

theorem timerTick_of_started (g : GCState) (t s₀ : ℚ)
    (hst : g.startTime = some s₀) (hs₀ : s₀ ≠ 0) :
    ((timerTick g t).1.levelProgress = (t - s₀) / (g.levelTime * 1000))
    ∧ ((timerTick g t).1.startTime = some s₀)
    ∧ ((timerTick g t).1.lastTime = some t)
    ∧ ((timerTick g t).1.levelTime = g.levelTime) := by
  simp only [timerTick, hst, Option.getD_some]
  by_cases hp : (t - s₀) / (g.levelTime * 1000) ≥ 1 <;>
    simp [hs₀, hp, emitStopLevel, stopTimer]

/-- C5: while the timer is running, successive ticks publish
non-decreasing progress; `stopTimer` (pause) and `resumeTimer` leave the
published progress untouched; and the first sample after a pause→resume
cycle — the resume callback running at time `t₃` and the sample at the
same time, i.e. with no time elapsed between resume and sample — equals
exactly the progress at the moment of the pause: the shift
`startTime += t₃ - lastTime` cancels the entire paused interval. -/
theorem C5_timer_progress (g : GCState) (s₀ t₁ t₂ t₃ : ℚ)
    (hst : g.startTime = some s₀) (hs₀ : 0 < s₀) (hD : 0 < g.levelTime)
    (h₁₂ : t₁ ≤ t₂) (h₁₃ : t₁ ≤ t₃) :
    ((timerTick g t₁).1.levelProgress
        ≤ (timerTick (timerTick g t₁).1 t₂).1.levelProgress)
    ∧ ((timerTick (resumeTimerAt (stopTimer (timerTick g t₁).1) t₃) t₃).1.levelProgress
        = (timerTick g t₁).1.levelProgress)
    ∧ ((stopTimer (timerTick g t₁).1).levelProgress
        = (timerTick g t₁).1.levelProgress)
    ∧ ((resumeTimerAt (stopTimer (timerTick g t₁).1) t₃).levelProgress
        = (timerTick g t₁).1.levelProgress) := by
  obtain ⟨hp₁, hst₁, hlt₁, hD₁⟩ := timerTick_of_started g t₁ s₀ hst (ne_of_gt hs₀)
  obtain ⟨hp₂, _, _, _⟩ :=
    timerTick_of_started (timerTick g t₁).1 t₂ s₀ hst₁ (ne_of_gt hs₀)
  have hden : 0 < g.levelTime * 1000 := by positivity
  refine ⟨?_, ?_, rfl, rfl⟩
  · rw [hp₁, hp₂, hD₁]
    exact (div_le_div_iff_of_pos_right hden).mpr (by linarith)
  · have hstR : (resumeTimerAt (stopTimer (timerTick g t₁).1) t₃).startTime
        = some (s₀ + (t₃ - t₁)) := by
      simp [resumeTimerAt, stopTimer, hst₁, hlt₁]
    have hsR : s₀ + (t₃ - t₁) ≠ 0 := by
      have : 0 < s₀ + (t₃ - t₁) := by linarith
      exact ne_of_gt this
    obtain ⟨hpR, _, _, _⟩ :=
      timerTick_of_started (resumeTimerAt (stopTimer (timerTick g t₁).1) t₃)
        t₃ (s₀ + (t₃ - t₁)) hstR hsR
    have hDR : (resumeTimerAt (stopTimer (timerTick g t₁).1) t₃).levelTime
        = g.levelTime := by
      simp [resumeTimerAt, stopTimer, hD₁]
    rw [hpR, hDR, hp₁]
    congr 1
    ring

/-- Witness for C5 at concrete numbers: start time 100, levelTime 30,
tick at 7600, second tick at 15100, pause, resume and first sample at
20000. -/
theorem C5_timer_progress_witness :
    ((timerTick { mkGameController with
        startTime := some 100, rafPending := true } 7600).1.levelProgress
      ≤ (timerTick (timerTick { mkGameController with
        startTime := some 100, rafPending := true } 7600).1 15100).1.levelProgress)
    ∧ ((timerTick (resumeTimerAt (stopTimer (timerTick { mkGameController with
        startTime := some 100, rafPending := true } 7600).1) 20000) 20000).1.levelProgress
      = (timerTick { mkGameController with
        startTime := some 100, rafPending := true } 7600).1.levelProgress)
    ∧ ((stopTimer (timerTick { mkGameController with
        startTime := some 100, rafPending := true } 7600).1).levelProgress
      = (timerTick { mkGameController with
        startTime := some 100, rafPending := true } 7600).1.levelProgress)
    ∧ ((resumeTimerAt (stopTimer (timerTick { mkGameController with
        startTime := some 100, rafPending := true } 7600).1) 20000).levelProgress
      = (timerTick { mkGameController with
        startTime := some 100, rafPending := true } 7600).1.levelProgress) :=
  C5_timer_progress { mkGameController with
      startTime := some 100, rafPending := true } 100 7600 15100 20000
    rfl (by norm_num) (by norm_num [mkGameController]) (by norm_num) (by norm_num)

/-- C7: a tick whose computed progress reaches 1 publishes `stop-level`
exactly once and cancels the frame it had just scheduled, so the stale
tick takes no further action (the timer stops itself); the `stop-level`
dispatch shows the game-over presentation exactly when the current level
is the configured total, and the continue (level-transition) menu
otherwise; the continue intent resets the published progress, increments
the level by one, marks the game in progress, and — once the menu is
hidden — restarts the timer (back to playing). -/
theorem C7_level_stop_and_transition :
    (∀ (g : GCState) (t t' : ℚ),
      1 ≤ (timerTick g t).1.levelProgress →
      (timerTick g t).2.count GCOutput.stopLevelPublished = 1
      ∧ (timerTick g t).1.rafPending = false
      ∧ guardedTick (timerTick g t).1 t' = ((timerTick g t).1, []))
    ∧ (∀ g : GCState, g.level = g.totalLevels →
        GCOutput.showGameOverMenu g.score ∈ (emitStopLevel g).2
        ∧ (∀ n : ℤ, GCOutput.showContinueMenu n ∉ (emitStopLevel g).2))
    ∧ (∀ g : GCState, g.level ≠ g.totalLevels →
        GCOutput.showContinueMenu (g.totalLevels - g.level) ∈ (emitStopLevel g).2
        ∧ (∀ n : ℤ, GCOutput.showGameOverMenu n ∉ (emitStopLevel g).2))
    ∧ (∀ g : GCState,
        (emitActionStartNextLevel g).1.level = g.level + 1
        ∧ (emitActionStartNextLevel g).1.levelProgress = 0
        ∧ (emitActionStartNextLevel g).1.isGameInProgress = true
        ∧ (emitStartNextLevel (emitActionStartNextLevel g).1).1.levelProgress = 0
        ∧ (emitStartNextLevel (emitActionStartNextLevel g).1).1.rafPending = true) := by
  refine ⟨?_, ?_, ?_, ?_⟩
  · intro g t t' h1
    by_cases hp : (t - (if t ≠ 0 ∧ g.startTime.getD 0 = 0 then some t
        else g.startTime).getD 0) / (g.levelTime * 1000) ≥ 1
    · by_cases hl : g.level = g.totalLevels <;>
        simp [timerTick, hp, emitStopLevel, stopTimer, guardedTick, hl,
          List.count_cons, List.count_append]
    · exfalso
      have heq : (timerTick g t).1.levelProgress
          = (t - (if t ≠ 0 ∧ g.startTime.getD 0 = 0 then some t
              else g.startTime).getD 0) / (g.levelTime * 1000) := by
        simp [timerTick, hp]
      rw [heq] at h1
      exact hp h1
  · intro g hl
    constructor
    · simp [emitStopLevel, hl]
    · intro n
      simp [emitStopLevel, hl]
  · intro g hl
    constructor
    · simp [emitStopLevel, hl]
    · intro n
      simp [emitStopLevel, hl]
  · intro g
    exact ⟨rfl, rfl, rfl, rfl, rfl⟩

/-- Witness for C7 at concrete inputs: a started timer sampled at 40100
(progress 4/3 ≥ 1) publishes `stop-level` once and goes quiescent; the
stop dispatch at level 10 of 10 shows the game-over menu, and at level 1
of 10 shows the continue menu. -/
theorem C7_level_stop_and_transition_witness :
    ((timerTick c7g 40100).2.count GCOutput.stopLevelPublished = 1
     ∧ (timerTick c7g 40100).1.rafPending = false
     ∧ guardedTick (timerTick c7g 40100).1 50000 = ((timerTick c7g 40100).1, []))
    ∧ GCOutput.showGameOverMenu c7last.score ∈ (emitStopLevel c7last).2
    ∧ GCOutput.showContinueMenu
        (mkGameController.totalLevels - mkGameController.level)
        ∈ (emitStopLevel mkGameController).2 := by
  have hprog : 1 ≤ (timerTick c7g 40100).1.levelProgress := by
    have h := (timerTick_of_started c7g 40100 100 rfl (by norm_num)).1
    rw [h, show c7g.levelTime = 30 from rfl]
    norm_num
  exact ⟨C7_level_stop_and_transition.1 c7g 40100 50000 hprog,
    (C7_level_stop_and_transition.2.1 c7last rfl).1,
    (C7_level_stop_and_transition.2.2.1 mkGameController (by decide)).1⟩

end Blocks
